import Mathlib

/-!
Verification development for the Kuber AI gold-workflow backend
(`kuber_ai_gold_workflow.py`): a shallow embedding of its storage model
(users and purchases tables), its query classifier, and its four
state-touching endpoints, together with theorems about the purchase
engine, the ledger, the classifier and the assistant.

Modelling conventions:
- Python floats (balance, gold_grams, amount_inr, grams, the rate) are
  modelled as exact rationals.
- `round(x, 6)` is modelled by `round6`, Python round-half-to-even at six
  fractional digits, computed exactly on rationals.
- The SQLite tables become lists; AUTOINCREMENT primary keys become the
  counters `next_user_id` / `next_purchase_id` (SQLite starts them at 1).
- `datetime.datetime.utcnow().isoformat()` is an external input; the
  purchase operations take the timestamp string as an explicit argument.
- `raise HTTPException(...)` becomes an `Except` error value; since the
  code raises before any write in every error path, error results carry
  the unchanged database.
-/

/-- A row of the `users` table: `user_id INTEGER PRIMARY KEY AUTOINCREMENT`,
`name TEXT NOT NULL`, `balance REAL DEFAULT 0`, `gold_grams REAL DEFAULT 0`. -/
structure User where
  user_id : Nat
  name : String
  balance : ℚ
  gold_grams : ℚ
deriving DecidableEq

/-- A row of the `purchases` table: `purchase_id INTEGER PRIMARY KEY
AUTOINCREMENT`, `user_id INTEGER NOT NULL`, `amount_inr REAL NOT NULL`,
`grams REAL NOT NULL`, `timestamp TEXT NOT NULL`. -/
structure Purchase where
  purchase_id : Nat
  user_id : Nat
  amount_inr : ℚ
  grams : ℚ
  timestamp : String
deriving DecidableEq

/-- The persistent state `data.db`: the two tables plus their
AUTOINCREMENT counters.  Rows are kept in insertion order. -/
structure DB where
  users : List User
  purchases : List Purchase
  next_user_id : Nat
  next_purchase_id : Nat
deriving DecidableEq

/-- `init_db()`: both tables created empty; SQLite AUTOINCREMENT keys
start at 1. -/
def initDB : DB := ⟨[], [], 1, 1⟩

/-- `GOLD_RATE_PER_GRAM = 6000.0`, the hardcoded INR-per-gram rate. -/
def GOLD_RATE_PER_GRAM : ℚ := 6000

/-- Python `round` at integer precision: round half to even (banker's
rounding), computed exactly on a rational. -/
def roundHalfEven (x : ℚ) : ℤ :=
  if x - (⌊x⌋ : ℚ) < 1/2 then ⌊x⌋
  else if 1/2 < x - (⌊x⌋ : ℚ) then ⌊x⌋ + 1
  else if ⌊x⌋ % 2 = 0 then ⌊x⌋ else ⌊x⌋ + 1

/-- Python `round(x, 6)`: scale by 10^6, round half to even, scale back. -/
def round6 (x : ℚ) : ℚ := ((roundHalfEven (x * 1000000) : ℚ)) / 1000000

/-- `GOLD_KEYWORDS`: the fixed keyword list of the LLM emulation. -/
def GOLD_KEYWORDS : List String :=
  ["gold",
   "digital gold",
   "invest in gold",
   "buy gold",
   "gold investment",
   "is gold safe",
   "should i buy gold"]

/-- `CANNED_FACTS`: the fixed informational paragraph. -/
def CANNED_FACTS : String :=
  "Gold is traditionally considered a hedge against inflation and currency depreciation. It tends to preserve value over long periods, though short-term price movements can be volatile."

/-- The fixed redirect message returned when the query is not about gold. -/
def NOT_GOLD_RESPONSE : String :=
  "I couldn\x27t detect that your question is about gold investment. If you want to learn about gold investments, try asking \x27Should I invest in gold?\x27 or \x27How to buy digital gold?\x27"

/-- The fixed nudge message returned for gold-related queries. -/
def NUDGE_TEXT : String :=
  "If you\x27d like, I can help you invest in digital gold through the Simplify Money flow. A small test purchase (e.g., ₹10) is a great way to see how it works. Would you like to proceed?"

/-- Helper for `containsSub`: `needle` is a leading segment of the list. -/
def isPrefixChars : List Char → List Char → Bool
  | [], _ => true
  | _ :: _, [] => false
  | a :: as, b :: bs => a == b && isPrefixChars as bs

/-- Python substring membership `needle in hay` on character lists:
true iff some suffix of `hay` starts with `needle`. -/
def containsSub (needle : List Char) : List Char → Bool
  | [] => needle.isEmpty
  | b :: t => isPrefixChars needle (b :: t) || containsSub needle t

/-- `text.lower()`: Python lower-casing, applied character by character. -/
def lowerChars (text : String) : List Char :=
  text.toList.map Char.toLower

/-- `query_is_about_gold(text)`: lower-case the input, then scan the
keyword list for a substring hit (the for-loop with early return). -/
def query_is_about_gold (text : String) : Bool :=
  GOLD_KEYWORDS.any fun kw => containsSub kw.toList (lowerChars text)

/-- `get_user(user_id)`: `SELECT * FROM users WHERE user_id = ?` then
`fetchone()`; `None` when no row matches. -/
def get_user (db : DB) (user_id : Nat) : Option User :=
  db.users.find? fun u => u.user_id == user_id

/-- `update_user_gold_and_balance(user_id, grams, amount_inr)`:
`UPDATE users SET balance = balance - ?, gold_grams = gold_grams + ?
WHERE user_id = ?` followed by `INSERT INTO purchases ...` with a fresh
AUTOINCREMENT id and the caller-supplied timestamp. -/
def update_user_gold_and_balance (db : DB) (user_id : Nat) (grams amount_inr : ℚ)
    (timestamp : String) : DB :=
  { db with
    users := db.users.map fun u =>
      if u.user_id == user_id then
        { u with balance := u.balance - amount_inr, gold_grams := u.gold_grams + grams }
      else u,
    purchases := db.purchases ++
      [⟨db.next_purchase_id, user_id, amount_inr, grams, timestamp⟩],
    next_purchase_id := db.next_purchase_id + 1 }

/-- `get_purchases_for_user(user_id)`: `SELECT * FROM purchases WHERE
user_id = ? ORDER BY purchase_id DESC`.  Rows are stored in ascending
`purchase_id` order (each insert uses the incremented counter), so the
DESC ordering is the reverse of the filtered list. -/
def get_purchases_for_user (db : DB) (user_id : Nat) : List Purchase :=
  (db.purchases.filter fun p => p.user_id == user_id).reverse

/-- The error taxonomy of the HTTP surface: `HTTPException(404, "User not
found")`, `HTTPException(400, "Amount must be greater than 0")`, and
`HTTPException(400, f"Insufficient balance. Available: {balance}")` whose
message carries the available balance. -/
inductive ApiError where
  | UserNotFound : ApiError
  | InvalidAmount : ApiError
  | InsufficientBalance (available : ℚ) : ApiError
deriving DecidableEq

/-- The success payload of `/purchase-gold`: the echoed purchase leg, the
re-read profile (`get_user`) and the re-read ledger
(`get_purchases_for_user`). -/
structure PurchaseOutcome where
  amount_inr : ℚ
  grams : ℚ
  updated_profile : Option User
  purchases : List Purchase
deriving DecidableEq

/-- Whether an endpoint result is a success. -/
def isOkResult {α : Type} (e : Except ApiError α) : Bool :=
  match e with
  | .ok _ => true
  | .error _ => false

/-- `create_user(req)`: `INSERT INTO users (name, balance, gold_grams)
VALUES (?, ?, ?)` with `(name, initial_deposit, 0.0)`; returns the new
`lastrowid`.  No validation is performed on `initial_deposit`. -/
def create_user (db : DB) (name : String) (initial_deposit : ℚ) : DB × Nat :=
  (⟨db.users ++ [⟨db.next_user_id, name, initial_deposit, 0⟩],
    db.purchases, db.next_user_id + 1, db.next_purchase_id⟩,
   db.next_user_id)

/-- `get_user_endpoint(user_id)`: 404 when absent, else the profile and
its ledger.  Reads only. -/
def get_user_endpoint (db : DB) (user_id : Nat) :
    DB × Except ApiError (User × List Purchase) :=
  match get_user db user_id with
  | none => (db, .error .UserNotFound)
  | some u => (db, .ok (u, get_purchases_for_user db user_id))

/-- The `/gold-assistant` response: either the fixed redirect, or the
fixed facts + nudge + `next_step` pointer. -/
inductive AssistantResponse where
  | redirect (response : String) : AssistantResponse
  | goldInfo (response nudge next_step : String) : AssistantResponse
deriving DecidableEq

/-- `gold_assistant(req)`: verify the user exists (404 otherwise), run
the classifier, return one of the two fixed responses.  No write. -/
def gold_assistant (db : DB) (user_id : Nat) (query : String) :
    DB × Except ApiError AssistantResponse :=
  match get_user db user_id with
  | none => (db, .error .UserNotFound)
  | some _ =>
    if query_is_about_gold query then
      (db, .ok (.goldInfo CANNED_FACTS NUDGE_TEXT ("/purchase-gold")))
    else
      (db, .ok (.redirect NOT_GOLD_RESPONSE))

/-- `purchase_gold(req)`: verify the user exists, then `amount_inr <= 0`,
then `user["balance"] < amount_inr`; on success compute
`grams = round(amount_inr / GOLD_RATE_PER_GRAM, 6)`, apply
`update_user_gold_and_balance`, and re-read profile and ledger. -/
def purchase_gold (db : DB) (user_id : Nat) (amount_inr : ℚ) (timestamp : String) :
    DB × Except ApiError PurchaseOutcome :=
  match get_user db user_id with
  | none => (db, .error .UserNotFound)
  | some user =>
    if amount_inr ≤ 0 then (db, .error .InvalidAmount)
    else if user.balance < amount_inr then
      (db, .error (.InsufficientBalance user.balance))
    else
      let grams := round6 (amount_inr / GOLD_RATE_PER_GRAM)
      let db2 := update_user_gold_and_balance db user_id grams amount_inr timestamp
      (db2, .ok ⟨amount_inr, grams, get_user db2 user_id, get_purchases_for_user db2 user_id⟩)

/-- States reachable from the fresh database by any sequence of the four
state-touching endpoints (user creation, purchase, assistant, profile
read). -/
inductive Reachable : DB → Prop where
  | init : Reachable initDB
  | create (db : DB) (name : String) (dep : ℚ) :
      Reachable db → Reachable (create_user db name dep).1
  | purchase (db : DB) (uid : Nat) (amount : ℚ) (ts : String) :
      Reachable db → Reachable (purchase_gold db uid amount ts).1
  | assistant (db : DB) (uid : Nat) (q : String) :
      Reachable db → Reachable (gold_assistant db uid q).1
  | read (db : DB) (uid : Nat) :
      Reachable db → Reachable (get_user_endpoint db uid).1

/-- Reachability when every user creation supplies a non-negative initial
deposit (the remaining operations are unrestricted). -/
inductive ReachableNN : DB → Prop where
  | init : ReachableNN initDB
  | create (db : DB) (name : String) (dep : ℚ) (hdep : 0 ≤ dep) :
      ReachableNN db → ReachableNN (create_user db name dep).1
  | purchase (db : DB) (uid : Nat) (amount : ℚ) (ts : String) :
      ReachableNN db → ReachableNN (purchase_gold db uid amount ts).1
  | assistant (db : DB) (uid : Nat) (q : String) :
      ReachableNN db → ReachableNN (gold_assistant db uid q).1
  | read (db : DB) (uid : Nat) :
      ReachableNN db → ReachableNN (get_user_endpoint db uid).1

/-- Run a sequence of `/purchase-gold` calls for one user, each carrying
an amount and a timestamp, threading the database through. -/
def applyPurchases (uid : Nat) : DB → List (ℚ × String) → DB
  | db, [] => db
  | db, a :: rest => applyPurchases uid (purchase_gold db uid a.1 a.2).1 rest

/-- Whether every call in a sequence of `/purchase-gold` calls succeeds. -/
def allSucceed (uid : Nat) : DB → List (ℚ × String) → Bool
  | _, [] => true
  | db, a :: rest =>
    isOkResult (purchase_gold db uid a.1 a.2).2 &&
      allSucceed uid (purchase_gold db uid a.1 a.2).1 rest

/-- Well-formedness of the `users` table maintained by AUTOINCREMENT:
all primary keys are below the counter and pairwise distinct. -/
def idsOk (db : DB) : Prop :=
  (∀ v ∈ db.users, v.user_id < db.next_user_id) ∧
  db.users.Pairwise fun a b => a.user_id ≠ b.user_id

/-- One user `alice` with balance 100, no purchases. -/
def dbAlice : DB := (create_user initDB ("alice") 100).1

/-- One user created with a negative initial deposit. -/
def dbEve : DB := (create_user initDB ("eve") (-1)).1

/-- One user `bob` with balance 40, no purchases. -/
def dbBob40 : DB := (create_user initDB ("bob") 40).1

/-- Two users: `alice` (id 1, balance 100) and `bob` (id 2, balance 7). -/
def dbTwo : DB := (create_user dbAlice ("bob") 7).1

theorem isPrefixChars_iff (n h : List Char) :
    isPrefixChars n h = true ↔ ∃ t, n ++ t = h := by
  induction n generalizing h with
  | nil => simp [isPrefixChars]
  | cons a as ih =>
    cases h with
    | nil => simp [isPrefixChars]
    | cons b bs =>
      simp only [isPrefixChars, Bool.and_eq_true, beq_iff_eq, ih, List.cons_append,
        List.cons.injEq]
      constructor
      · rintro ⟨h1, t, h2⟩
        exact ⟨t, h1, h2⟩
      · rintro ⟨t, h1, h2⟩
        exact ⟨h1, t, h2⟩

theorem containsSub_iff (n h : List Char) :
    containsSub n h = true ↔ ∃ p t, p ++ n ++ t = h := by
  induction h with
  | nil =>
    cases n <;> simp [containsSub, List.isEmpty]
  | cons b bs ih =>
    simp only [containsSub, Bool.or_eq_true, isPrefixChars_iff, ih]
    constructor
    · rintro (⟨t, ht⟩ | ⟨p, t, ht⟩)
      · exact ⟨[], t, by simpa using ht⟩
      · exact ⟨b :: p, t, by simp [ht]⟩
    · rintro ⟨p, t, ht⟩
      cases p with
      | nil => exact Or.inl ⟨t, by simpa using ht⟩
      | cons x xs =>
        refine Or.inr ⟨xs, t, ?_⟩
        have := ht
        simp only [List.cons_append, List.cons.injEq] at this
        exact this.2

/-- Claim C7: the classifier is a pure total function that lower-cases
its input and returns true iff some member of the fixed keyword list
occurs as a substring of the lowered text; it accepts
"Should I buy gold?", rejects "What's the weather?", and its result is
unchanged under changes of letter case. -/
theorem classifier_keyword_substring_spec :
    (∀ s : String, query_is_about_gold s = true ↔
        ∃ kw, kw ∈ GOLD_KEYWORDS ∧ ∃ p t, p ++ kw.toList ++ t = lowerChars s) ∧
    query_is_about_gold ("Should I buy gold?") = true ∧
    query_is_about_gold ("What\x27s the weather?") = false ∧
    ∀ s t : String, lowerChars s = lowerChars t →
      query_is_about_gold s = query_is_about_gold t := by
  refine ⟨fun s => ?_, by decide, by decide, fun s t h => by simp [query_is_about_gold, h]⟩
  simp [query_is_about_gold, List.any_eq_true, containsSub_iff]

/-- Witness for C7 at concrete inputs: two case-variants of one query
are classified identically. -/
theorem classifier_keyword_substring_spec_witness :
    lowerChars ("GOLD Rate?") = lowerChars ("gold rate?") ∧
    query_is_about_gold ("GOLD Rate?") = query_is_about_gold ("gold rate?") :=
  ⟨by decide, classifier_keyword_substring_spec.2.2.2 ("GOLD Rate?") ("gold rate?") (by decide)⟩

theorem roundHalfEven_nonneg (x : ℚ) (hx : 0 ≤ x) : 0 ≤ roundHalfEven x := by
  unfold roundHalfEven
  have h0 : (0:ℤ) ≤ ⌊x⌋ := Int.floor_nonneg.mpr hx
  split_ifs <;> omega

theorem round6_nonneg (x : ℚ) (hx : 0 ≤ x) : 0 ≤ round6 x := by
  unfold round6
  have h1 : (0:ℤ) ≤ roundHalfEven (x * 1000000) :=
    roundHalfEven_nonneg _ (mul_nonneg hx (by norm_num))
  have h2 : (0:ℚ) ≤ ((roundHalfEven (x * 1000000) : ℤ) : ℚ) := by exact_mod_cast h1
  exact div_nonneg h2 (by norm_num)

theorem gold_assistant_fst (db : DB) (uid : Nat) (q : String) :
    (gold_assistant db uid q).1 = db := by
  unfold gold_assistant
  cases get_user db uid with
  | none => rfl
  | some u =>
    simp only
    split <;> rfl

theorem get_user_endpoint_fst (db : DB) (uid : Nat) :
    (get_user_endpoint db uid).1 = db := by
  unfold get_user_endpoint
  cases get_user db uid <;> rfl

theorem purchase_gold_of_none (db : DB) (uid : Nat) (a : ℚ) (ts : String)
    (h : get_user db uid = none) :
    purchase_gold db uid a ts = (db, .error .UserNotFound) := by
  unfold purchase_gold
  rw [h]

theorem purchase_gold_of_nonpos (db : DB) (uid : Nat) (a : ℚ) (ts : String) (u : User)
    (h : get_user db uid = some u) (ha : a ≤ 0) :
    purchase_gold db uid a ts = (db, .error .InvalidAmount) := by
  unfold purchase_gold
  rw [h]
  simp [ha]

theorem purchase_gold_of_insufficient (db : DB) (uid : Nat) (a : ℚ) (ts : String) (u : User)
    (h : get_user db uid = some u) (ha : 0 < a) (hb : u.balance < a) :
    purchase_gold db uid a ts = (db, .error (.InsufficientBalance u.balance)) := by
  unfold purchase_gold
  rw [h]
  simp [not_le.mpr ha, hb]

theorem purchase_gold_of_success (db : DB) (uid : Nat) (a : ℚ) (ts : String) (u : User)
    (h : get_user db uid = some u) (ha : 0 < a) (hb : a ≤ u.balance) :
    purchase_gold db uid a ts =
      (update_user_gold_and_balance db uid (round6 (a / GOLD_RATE_PER_GRAM)) a ts,
       .ok ⟨a, round6 (a / GOLD_RATE_PER_GRAM),
            get_user (update_user_gold_and_balance db uid
              (round6 (a / GOLD_RATE_PER_GRAM)) a ts) uid,
            get_purchases_for_user (update_user_gold_and_balance db uid
              (round6 (a / GOLD_RATE_PER_GRAM)) a ts) uid⟩) := by
  unfold purchase_gold
  rw [h]
  simp [not_le.mpr ha, not_lt.mpr hb]

theorem purchase_gold_cases (db : DB) (uid : Nat) (a : ℚ) (ts : String) :
    (purchase_gold db uid a ts).1 = db ∨
    (0 < a ∧ ∃ u, get_user db uid = some u ∧ a ≤ u.balance ∧
      (purchase_gold db uid a ts).1 =
        update_user_gold_and_balance db uid (round6 (a / GOLD_RATE_PER_GRAM)) a ts) := by
  cases hu : get_user db uid with
  | none => exact Or.inl (by rw [purchase_gold_of_none db uid a ts hu])
  | some u =>
    by_cases ha : a ≤ 0
    · exact Or.inl (by rw [purchase_gold_of_nonpos db uid a ts u hu ha])
    · by_cases hb : u.balance < a
      · exact Or.inl (by rw [purchase_gold_of_insufficient db uid a ts u hu (not_le.mp ha) hb])
      · refine Or.inr ⟨not_le.mp ha, u, rfl, not_lt.mp hb, ?_⟩
        rw [purchase_gold_of_success db uid a ts u hu (not_le.mp ha) (not_lt.mp hb)]

theorem purchase_gold_ok_iff (db : DB) (uid : Nat) (a : ℚ) (ts : String) :
    isOkResult (purchase_gold db uid a ts).2 = true ↔
    (0 < a ∧ ∃ u, get_user db uid = some u ∧ a ≤ u.balance) := by
  cases hu : get_user db uid with
  | none =>
    rw [purchase_gold_of_none db uid a ts hu]
    simp [isOkResult]
  | some u =>
    by_cases ha : a ≤ 0
    · rw [purchase_gold_of_nonpos db uid a ts u hu ha]
      constructor
      · intro h
        simp [isOkResult] at h
      · rintro ⟨hpos, -⟩
        exact absurd hpos (not_lt.mpr ha)
    · by_cases hb : u.balance < a
      · rw [purchase_gold_of_insufficient db uid a ts u hu (not_le.mp ha) hb]
        constructor
        · intro h
          simp [isOkResult] at h
        · rintro ⟨-, v, hv, hvb⟩
          obtain rfl : u = v := Option.some.inj hv
          exact absurd hvb (not_le.mpr hb)
      · rw [purchase_gold_of_success db uid a ts u hu (not_le.mp ha) (not_lt.mp hb)]
        exact iff_of_true rfl ⟨not_le.mp ha, u, rfl, not_lt.mp hb⟩

theorem find_user_map (l : List User) (uid : Nat) (f : User → User)
    (hf : ∀ u, (f u).user_id = u.user_id) :
    (l.map f).find? (fun u => u.user_id == uid) =
      (l.find? (fun u => u.user_id == uid)).map f := by
  induction l with
  | nil => rfl
  | cons a t ih =>
    by_cases h : a.user_id = uid
    · simp [List.find?_cons, hf a, h]
    · simp [List.find?_cons, hf a, h, ih]

theorem get_user_update (db : DB) (uid : Nat) (g a : ℚ) (ts : String) :
    get_user (update_user_gold_and_balance db uid g a ts) uid =
      (get_user db uid).map fun u =>
        { u with balance := u.balance - a, gold_grams := u.gold_grams + g } := by
  unfold get_user update_user_gold_and_balance
  rw [find_user_map]
  · cases hres : db.users.find? (fun u => u.user_id == uid) with
    | none => rfl
    | some u =>
      have hp := List.find?_some hres
      dsimp only [Option.map]
      rw [if_pos hp]
  · intro u
    by_cases h : u.user_id == uid <;> simp [h]

theorem update_purchases_eq (db : DB) (uid : Nat) (g a : ℚ) (ts : String) :
    (update_user_gold_and_balance db uid g a ts).purchases =
      db.purchases ++ [⟨db.next_purchase_id, uid, a, g, ts⟩] := rfl

theorem get_purchases_update_self (db : DB) (uid : Nat) (g a : ℚ) (ts : String) :
    get_purchases_for_user (update_user_gold_and_balance db uid g a ts) uid =
      ⟨db.next_purchase_id, uid, a, g, ts⟩ :: get_purchases_for_user db uid := by
  unfold get_purchases_for_user
  rw [update_purchases_eq]
  simp [List.filter_append]

/-- Claim C1: for an existing user with balance at least the positive
amount, `purchase` succeeds, the balance drops by the amount, the gold
holding grows by `round(amount/rate, 6)` with rate 6000, and exactly one
ledger row with that user id, amount and grams is appended. -/
theorem purchase_success_updates_account_and_ledger
    (db : DB) (uid : Nat) (a : ℚ) (ts : String) (u : User)
    (hu : get_user db uid = some u) (hpos : 0 < a) (hbal : a ≤ u.balance) :
    GOLD_RATE_PER_GRAM = 6000 ∧
    isOkResult (purchase_gold db uid a ts).2 = true ∧
    get_user (purchase_gold db uid a ts).1 uid =
      some { u with balance := u.balance - a,
                    gold_grams := u.gold_grams + round6 (a / GOLD_RATE_PER_GRAM) } ∧
    (purchase_gold db uid a ts).1.purchases =
      db.purchases ++ [⟨db.next_purchase_id, uid, a, round6 (a / GOLD_RATE_PER_GRAM), ts⟩] := by
  rw [purchase_gold_of_success db uid a ts u hu hpos hbal]
  refine ⟨rfl, rfl, ?_, update_purchases_eq db uid _ a ts⟩
  rw [get_user_update, hu]
  rfl

/-- Witness for C1: alice (balance 100) buys for 60 INR. -/
theorem purchase_success_updates_account_and_ledger_witness :
    get_user dbAlice 1 = some ⟨1, ("alice"), 100, 0⟩ ∧
    (0:ℚ) < 60 ∧ (60:ℚ) ≤ (⟨1, ("alice"), 100, 0⟩ : User).balance ∧
    (GOLD_RATE_PER_GRAM = 6000 ∧
     isOkResult (purchase_gold dbAlice 1 60 ("t")).2 = true ∧
     get_user (purchase_gold dbAlice 1 60 ("t")).1 1 =
       some ⟨1, ("alice"), 100 - 60, 0 + round6 (60 / GOLD_RATE_PER_GRAM)⟩ ∧
     (purchase_gold dbAlice 1 60 ("t")).1.purchases =
       dbAlice.purchases ++
         [⟨dbAlice.next_purchase_id, 1, 60, round6 (60 / GOLD_RATE_PER_GRAM), ("t")⟩]) :=
  ⟨rfl, by norm_num, by norm_num,
   purchase_success_updates_account_and_ledger dbAlice 1 60 ("t") ⟨1, ("alice"), 100, 0⟩
     rfl (by norm_num) (by norm_num)⟩

/-- Claim C3: with an existing user, a positive amount exceeding the
balance fails with InsufficientBalance carrying the available balance and
leaves the state unchanged; when the balance covers the amount the
insufficient-balance failure cannot occur, and an amount exactly equal to
the balance succeeds. -/
theorem purchase_insufficient_balance_spec
    (db : DB) (uid : Nat) (a : ℚ) (ts : String) (u : User)
    (hu : get_user db uid = some u) :
    (0 < a → u.balance < a →
      purchase_gold db uid a ts = (db, .error (.InsufficientBalance u.balance))) ∧
    (a ≤ u.balance → ∀ b : ℚ,
      (purchase_gold db uid a ts).2 ≠ .error (.InsufficientBalance b)) ∧
    (0 < a → a = u.balance → isOkResult (purchase_gold db uid a ts).2 = true) := by
  refine ⟨fun ha hb => purchase_gold_of_insufficient db uid a ts u hu ha hb, ?_, ?_⟩
  · intro hle b
    by_cases ha : a ≤ 0
    · rw [purchase_gold_of_nonpos db uid a ts u hu ha]
      simp
    · rw [purchase_gold_of_success db uid a ts u hu (not_le.mp ha) hle]
      simp
  · intro ha heq
    rw [purchase_gold_of_success db uid a ts u hu ha (le_of_eq heq)]
    rfl

/-- Witness for C3: bob (balance 40) attempts a purchase of 60 INR. -/
theorem purchase_insufficient_balance_spec_witness :
    purchase_gold dbBob40 1 60 ("t") = (dbBob40, .error (.InsufficientBalance 40)) :=
  (purchase_insufficient_balance_spec dbBob40 1 60 ("t") ⟨1, ("bob"), 40, 0⟩ rfl).1
    (by norm_num) (by norm_num)

/-- Counterexample to C4 as stated: with a `user_id` that does not
resolve, `amount_inr <= 0` yields UserNotFound (the user check runs
first), not InvalidAmount. -/
theorem purchase_nonpos_missing_user_yields_user_not_found :
    purchase_gold initDB 1 (-5) ("t") = (initDB, .error .UserNotFound) ∧
    (Except.error ApiError.UserNotFound : Except ApiError PurchaseOutcome) ≠
      Except.error ApiError.InvalidAmount := by
  exact ⟨rfl, fun h => ApiError.noConfusion (Except.error.inj h)⟩

/-- Claim C4 (amended): for every existing user and every
`amount_inr <= 0`, purchase fails with InvalidAmount and leaves all
account state and the ledger unchanged. -/
theorem purchase_invalid_amount_spec
    (db : DB) (uid : Nat) (a : ℚ) (ts : String) (u : User)
    (hu : get_user db uid = some u) (ha : a ≤ 0) :
    purchase_gold db uid a ts = (db, .error .InvalidAmount) :=
  purchase_gold_of_nonpos db uid a ts u hu ha

/-- Witness for C4 (amended): alice attempts a purchase of -3 INR. -/
theorem purchase_invalid_amount_spec_witness :
    purchase_gold dbAlice 1 (-3) ("t") = (dbAlice, .error .InvalidAmount) :=
  purchase_invalid_amount_spec dbAlice 1 (-3) ("t") ⟨1, ("alice"), 100, 0⟩ rfl (by norm_num)

/-- Claim C5: for every `user_id` that does not resolve to an account,
purchase fails with UserNotFound and changes nothing. -/
theorem purchase_user_not_found_spec
    (db : DB) (uid : Nat) (a : ℚ) (ts : String)
    (hu : get_user db uid = none) :
    purchase_gold db uid a ts = (db, .error .UserNotFound) :=
  purchase_gold_of_none db uid a ts hu

/-- Witness for C5: user 7 does not exist in the fresh database. -/
theorem purchase_user_not_found_spec_witness :
    purchase_gold initDB 7 25 ("t") = (initDB, .error .UserNotFound) :=
  purchase_user_not_found_spec initDB 7 25 ("t") rfl

/-- Claim C9: the assistant never writes state, and its response depends
only on the classifier verdict on the query: queries with equal
classification get identical responses. -/
theorem assistant_stateless_and_classifier_determined
    (db : DB) (uid : Nat) (q1 q2 : String) :
    (gold_assistant db uid q1).1 = db ∧
    (query_is_about_gold q1 = query_is_about_gold q2 →
      (gold_assistant db uid q1).2 = (gold_assistant db uid q2).2) := by
  refine ⟨gold_assistant_fst db uid q1, fun h => ?_⟩
  unfold gold_assistant
  cases get_user db uid with
  | none => rfl
  | some u =>
    simp only [h]

/-- Witness for C9: two distinct gold-related queries get one response. -/
theorem assistant_stateless_and_classifier_determined_witness :
    query_is_about_gold ("gold rate today") = query_is_about_gold ("buy gold now") ∧
    (gold_assistant dbAlice 1 ("gold rate today")).2 =
      (gold_assistant dbAlice 1 ("buy gold now")).2 :=
  ⟨by decide,
   (assistant_stateless_and_classifier_determined dbAlice 1
      ("gold rate today") ("buy gold now")).2 (by decide)⟩

theorem create_user_users (db : DB) (name : String) (dep : ℚ) :
    (create_user db name dep).1.users =
      db.users ++ [⟨db.next_user_id, name, dep, 0⟩] := rfl

theorem update_users_eq (db : DB) (uid : Nat) (g a : ℚ) (ts : String) :
    (update_user_gold_and_balance db uid g a ts).users =
      db.users.map fun u =>
        if u.user_id == uid then
          { u with balance := u.balance - a, gold_grams := u.gold_grams + g }
        else u := rfl

theorem grams_of_purchase_nonneg (a : ℚ) (ha : 0 < a) :
    0 ≤ round6 (a / GOLD_RATE_PER_GRAM) :=
  round6_nonneg _ (div_nonneg ha.le (by norm_num [GOLD_RATE_PER_GRAM]))

theorem gold_nonneg_invariant (db : DB) (h : Reachable db) :
    ∀ v ∈ db.users, 0 ≤ v.gold_grams := by
  induction h with
  | init =>
    intro v hv
    cases hv
  | create db name dep hr ih =>
    intro v hv
    rw [create_user_users, List.mem_append] at hv
    rcases hv with hv | hv
    · exact ih v hv
    · rw [List.mem_singleton] at hv
      subst hv
      exact le_refl 0
  | purchase db uid a ts hr ih =>
    intro v hv
    rcases purchase_gold_cases db uid a ts with heq | ⟨hpos, u, hu, hb, heq⟩
    · rw [heq] at hv
      exact ih v hv
    · rw [heq, update_users_eq, List.mem_map] at hv
      obtain ⟨w, hw, hfw⟩ := hv
      subst hfw
      by_cases hid : (w.user_id == uid) = true
      · simp only [hid, if_true]
        exact add_nonneg (ih w hw) (grams_of_purchase_nonneg a hpos)
      · simp only [hid, if_false]
        exact ih w hw
  | assistant db uid q hr ih =>
    rw [gold_assistant_fst]
    exact ih
  | read db uid hr ih =>
    rw [get_user_endpoint_fst]
    exact ih

theorem find_eq_of_mem_of_pairwise (l : List User) (uid : Nat) (u v : User)
    (hfind : l.find? (fun w => w.user_id == uid) = some u)
    (hv : v ∈ l) (hid : v.user_id = uid)
    (hpw : l.Pairwise fun a b => a.user_id ≠ b.user_id) : v = u := by
  induction l with
  | nil => cases hv
  | cons a t ih =>
    rw [List.pairwise_cons] at hpw
    by_cases h : a.user_id = uid
    · simp only [List.find?_cons, h, beq_self_eq_true] at hfind
      obtain rfl : a = u := Option.some.inj hfind
      cases hv with
      | head => rfl
      | tail _ hvt => exact absurd (h.trans hid.symm) (hpw.1 v hvt)
    · have hb : (a.user_id == uid) = false := beq_eq_false_iff_ne.mpr h
      simp only [List.find?_cons, hb] at hfind
      cases hv with
      | head => exact absurd hid h
      | tail _ hvt => exact ih hfind hvt hpw.2

theorem idsOk_initDB : idsOk initDB := by
  constructor
  · intro v hv
    cases hv
  · exact List.Pairwise.nil

theorem idsOk_create (db : DB) (name : String) (dep : ℚ) (h : idsOk db) :
    idsOk (create_user db name dep).1 := by
  obtain ⟨hbound, hpw⟩ := h
  constructor
  · intro v hv
    rw [create_user_users, List.mem_append] at hv
    rcases hv with hv | hv
    · exact Nat.lt_succ_of_lt (hbound v hv)
    · rw [List.mem_singleton] at hv
      subst hv
      exact Nat.lt_succ_self _
  · rw [create_user_users, List.pairwise_append]
    refine ⟨hpw, List.pairwise_singleton _ _, ?_⟩
    intro x hx y hy
    rw [List.mem_singleton] at hy
    subst hy
    exact Nat.ne_of_lt (hbound x hx)

theorem idsOk_update (db : DB) (uid : Nat) (g a : ℚ) (ts : String) (h : idsOk db) :
    idsOk (update_user_gold_and_balance db uid g a ts) := by
  obtain ⟨hbound, hpw⟩ := h
  have hid : ∀ u : User,
      (if u.user_id == uid then
        { u with balance := u.balance - a, gold_grams := u.gold_grams + g }
      else u).user_id = u.user_id := by
    intro u
    by_cases hc : (u.user_id == uid) = true <;> simp [hc]
  constructor
  · intro v hv
    rw [update_users_eq, List.mem_map] at hv
    obtain ⟨w, hw, hfw⟩ := hv
    subst hfw
    rw [hid w]
    exact hbound w hw
  · rw [update_users_eq, List.pairwise_map]
    refine hpw.imp_of_mem ?_
    intro x y hx hy hxy
    rw [hid x, hid y]
    exact hxy

theorem idsOk_reachableNN (db : DB) (h : ReachableNN db) : idsOk db := by
  induction h with
  | init => exact idsOk_initDB
  | create db name dep hdep hr ih => exact idsOk_create db name dep ih
  | purchase db uid a ts hr ih =>
    rcases purchase_gold_cases db uid a ts with heq | ⟨hpos, u, hu, hb, heq⟩
    · rw [heq]
      exact ih
    · rw [heq]
      exact idsOk_update db uid _ a ts ih
  | assistant db uid q hr ih =>
    rw [gold_assistant_fst]
    exact ih
  | read db uid hr ih =>
    rw [get_user_endpoint_fst]
    exact ih

/-- Counterexample to C2 as stated: `create_user` performs no validation
on the caller-supplied deposit, so a creation with deposit -1 reaches a
state whose only account has balance -1 < 0. -/
theorem negative_deposit_reaches_negative_balance :
    Reachable dbEve ∧
    get_user dbEve 1 = some ⟨1, ("eve"), -1, 0⟩ ∧
    (⟨1, ("eve"), (-1 : ℚ), 0⟩ : User).balance < 0 := by
  refine ⟨?_, rfl, by norm_num⟩
  exact Reachable.create initDB ("eve") (-1) Reachable.init

/-- Claim C2 (amended): in every state reachable by the public
operations in which every user creation supplies a non-negative initial
deposit, all account balances are non-negative (purchases preserve this
because the engine checks the balance before the debit). -/
theorem balance_nonneg_when_deposits_nonneg (db : DB) (h : ReachableNN db) :
    ∀ v ∈ db.users, 0 ≤ v.balance := by
  induction h with
  | init =>
    intro v hv
    cases hv
  | create db name dep hdep hr ih =>
    intro v hv
    rw [create_user_users, List.mem_append] at hv
    rcases hv with hv | hv
    · exact ih v hv
    · rw [List.mem_singleton] at hv
      subst hv
      exact hdep
  | purchase db uid a ts hr ih =>
    intro v hv
    rcases purchase_gold_cases db uid a ts with heq | ⟨hpos, u, hu, hb, heq⟩
    · rw [heq] at hv
      exact ih v hv
    · rw [heq, update_users_eq, List.mem_map] at hv
      obtain ⟨w, hw, hfw⟩ := hv
      subst hfw
      by_cases hid : (w.user_id == uid) = true
      · simp only [hid, if_true]
        obtain rfl : w = u :=
          find_eq_of_mem_of_pairwise db.users uid u w hu hw (beq_iff_eq.mp hid)
            (idsOk_reachableNN db hr).2
        simpa using sub_nonneg.mpr hb
      · simp only [hid, if_false]
        exact ih w hw
  | assistant db uid q hr ih =>
    rw [gold_assistant_fst]
    exact ih
  | read db uid hr ih =>
    rw [get_user_endpoint_fst]
    exact ih

/-- Witness for C2 (amended): in the state reached by creating alice with
deposit 100, her balance is non-negative. -/
theorem balance_nonneg_when_deposits_nonneg_witness :
    0 ≤ (⟨1, ("alice"), (100 : ℚ), 0⟩ : User).balance :=
  balance_nonneg_when_deposits_nonneg dbAlice
    (ReachableNN.create initDB ("alice") 100 (by norm_num) ReachableNN.init)
    ⟨1, ("alice"), 100, 0⟩ (by simp [dbAlice, create_user, initDB])

/-- Counterexample to C8 as stated: a successful purchase of 1/500 INR
(0.002, within balance, positive) credits `round(0.002/6000, 6) = 0`
grams, so gold_grams does not strictly increase. -/
theorem tiny_purchase_succeeds_without_gold_increase :
    isOkResult (purchase_gold dbAlice 1 (1/500) ("t")).2 = true ∧
    (get_user dbAlice 1).map User.gold_grams = some 0 ∧
    (get_user (purchase_gold dbAlice 1 (1/500) ("t")).1 1).map User.gold_grams = some 0 ∧
    ¬ ((0:ℚ) < 0) := by
  have hr : round6 ((1/500) / GOLD_RATE_PER_GRAM) = 0 := by
    unfold round6 roundHalfEven GOLD_RATE_PER_GRAM
    norm_num
  have hs := purchase_gold_of_success dbAlice 1 (1/500) ("t") ⟨1, ("alice"), 100, 0⟩
    rfl (by norm_num) (by norm_num)
  rw [hs]
  refine ⟨rfl, rfl, ?_, by norm_num⟩
  rw [get_user_update]
  show some ((0:ℚ) + round6 ((1/500) / GOLD_RATE_PER_GRAM)) = some 0
  rw [hr]
  norm_num

/-- Claim C8 (amended): gold_grams is non-negative in every reachable
state, and a successful purchase leaves the purchaser's gold_grams at
old + round(amount/rate, 6), which is at least the old value (the
increase can be zero for very small amounts). -/
theorem gold_nonneg_and_purchase_nondecreasing :
    (∀ db : DB, Reachable db → ∀ v ∈ db.users, 0 ≤ v.gold_grams) ∧
    (∀ (db : DB) (uid : Nat) (a : ℚ) (ts : String) (u : User),
      get_user db uid = some u →
      isOkResult (purchase_gold db uid a ts).2 = true →
      get_user (purchase_gold db uid a ts).1 uid =
        some { u with balance := u.balance - a,
                      gold_grams := u.gold_grams + round6 (a / GOLD_RATE_PER_GRAM) } ∧
      u.gold_grams ≤ u.gold_grams + round6 (a / GOLD_RATE_PER_GRAM)) := by
  refine ⟨gold_nonneg_invariant, ?_⟩
  intro db uid a ts u hu hok
  obtain ⟨hpos, u2, hu2, hb⟩ := (purchase_gold_ok_iff db uid a ts).mp hok
  rw [hu] at hu2
  obtain rfl : u = u2 := Option.some.inj hu2
  constructor
  · rw [purchase_gold_of_success db uid a ts u hu hpos hb]
    rw [get_user_update, hu]
    rfl
  · exact le_add_of_nonneg_right (grams_of_purchase_nonneg a hpos)

/-- Witness for C8 (amended): alice buys for 60 INR; her gold holding
does not decrease. -/
theorem gold_nonneg_and_purchase_nondecreasing_witness :
    get_user dbAlice 1 = some ⟨1, ("alice"), 100, 0⟩ ∧
    isOkResult (purchase_gold dbAlice 1 60 ("t")).2 = true ∧
    ((⟨1, ("alice"), (100:ℚ), 0⟩ : User).gold_grams ≤
      (⟨1, ("alice"), (100:ℚ), 0⟩ : User).gold_grams + round6 (60 / GOLD_RATE_PER_GRAM)) := by
  have hok : isOkResult (purchase_gold dbAlice 1 60 ("t")).2 = true := by
    rw [purchase_gold_of_success dbAlice 1 60 ("t") ⟨1, ("alice"), 100, 0⟩
      rfl (by norm_num) (by norm_num)]
    rfl
  exact ⟨rfl, hok,
    (gold_nonneg_and_purchase_nondecreasing.2 dbAlice 1 60 ("t") ⟨1, ("alice"), 100, 0⟩
      rfl hok).2⟩

theorem applyPurchases_ledger_proj (uid : Nat) (l : List (ℚ × String)) :
    ∀ db : DB, allSucceed uid db l = true →
    ((get_purchases_for_user (applyPurchases uid db l) uid).map
        fun p => (p.amount_inr, p.grams)) =
      (l.map fun a => (a.1, round6 (a.1 / GOLD_RATE_PER_GRAM))).reverse ++
        ((get_purchases_for_user db uid).map fun p => (p.amount_inr, p.grams)) := by
  induction l with
  | nil =>
    intro db h
    simp [applyPurchases]
  | cons a rest ih =>
    intro db h
    simp only [allSucceed, Bool.and_eq_true] at h
    obtain ⟨hok, hrest⟩ := h
    obtain ⟨hpos, u, hu, hb⟩ := (purchase_gold_ok_iff db uid a.1 a.2).mp hok
    have hstep := purchase_gold_of_success db uid a.1 a.2 u hu hpos hb
    have hled : get_purchases_for_user (purchase_gold db uid a.1 a.2).1 uid =
        ⟨db.next_purchase_id, uid, a.1, round6 (a.1 / GOLD_RATE_PER_GRAM), a.2⟩ ::
          get_purchases_for_user db uid := by
      rw [hstep]
      exact get_purchases_update_self db uid _ a.1 a.2
    simp only [applyPurchases]
    rw [ih _ hrest, hled]
    simp [List.append_assoc]

/-- Claim C6: starting from a user with an empty ledger, a sequence of N
successful purchases yields a listing with exactly N records, newest
first, whose i-th oldest record carries the i-th call's amount and its
computed grams; no public operation mutates or deletes existing ledger
rows. -/
theorem ledger_append_only_spec
    (db : DB) (uid : Nat) (l : List (ℚ × String))
    (hfresh : get_purchases_for_user db uid = [])
    (hsucc : allSucceed uid db l = true) :
    ((get_purchases_for_user (applyPurchases uid db l) uid).map
        fun p => (p.amount_inr, p.grams)) =
      (l.map fun a => (a.1, round6 (a.1 / GOLD_RATE_PER_GRAM))).reverse ∧
    (get_purchases_for_user (applyPurchases uid db l) uid).length = l.length ∧
    (∀ (db2 : DB) (name : String) (dep : ℚ),
      (create_user db2 name dep).1.purchases = db2.purchases) ∧
    (∀ (db2 : DB) (uid2 : Nat) (q : String),
      (gold_assistant db2 uid2 q).1.purchases = db2.purchases) ∧
    (∀ (db2 : DB) (uid2 : Nat),
      (get_user_endpoint db2 uid2).1.purchases = db2.purchases) ∧
    (∀ (db2 : DB) (uid2 : Nat) (a : ℚ) (ts : String),
      ((purchase_gold db2 uid2 a ts).1.purchases).take db2.purchases.length =
        db2.purchases) := by
  have hmain := applyPurchases_ledger_proj uid l db hsucc
  rw [hfresh] at hmain
  simp only [List.map_nil, List.append_nil] at hmain
  refine ⟨hmain, ?_, fun db2 n d => rfl,
    fun db2 u2 q => by rw [gold_assistant_fst],
    fun db2 u2 => by rw [get_user_endpoint_fst], ?_⟩
  · have hlen := congrArg List.length hmain
    simpa using hlen
  · intro db2 uid2 a ts
    rcases purchase_gold_cases db2 uid2 a ts with heq | ⟨hpos, u, hu, hb, heq⟩
    · rw [heq]
      exact List.take_length db2.purchases
    · rw [heq, update_purchases_eq]
      exact List.take_left db2.purchases _

/-- Witness for C6: one successful purchase of 60 INR by alice produces
a one-record listing carrying (60, round(60/6000, 6)). -/
theorem ledger_append_only_spec_witness :
    get_purchases_for_user dbAlice 1 = [] ∧
    allSucceed 1 dbAlice [((60:ℚ), ("t"))] = true ∧
    ((get_purchases_for_user (applyPurchases 1 dbAlice [((60:ℚ), ("t"))]) 1).map
        fun p => (p.amount_inr, p.grams)) =
      ([((60:ℚ), ("t"))].map fun a => (a.1, round6 (a.1 / GOLD_RATE_PER_GRAM))).reverse := by
  have hsucc : allSucceed 1 dbAlice [((60:ℚ), ("t"))] = true := by
    simp only [allSucceed]
    rw [purchase_gold_of_success dbAlice 1 60 ("t") ⟨1, ("alice"), 100, 0⟩
      rfl (by norm_num) (by norm_num)]
    rfl
  exact ⟨rfl, hsucc, (ledger_append_only_spec dbAlice 1 [((60:ℚ), ("t"))] rfl hsucc).1⟩

/-- Claim C10: a successful purchase for user `uid` leaves every user row
with a different id unchanged (same position, same fields), leaves every
pre-existing ledger row unchanged, and appends exactly one ledger row
owned by `uid`. -/
theorem purchase_frame_effect
    (db : DB) (uid : Nat) (a : ℚ) (ts : String)
    (hok : isOkResult (purchase_gold db uid a ts).2 = true) :
    (∀ (i : Nat) (v : User), db.users[i]? = some v → v.user_id ≠ uid →
      (purchase_gold db uid a ts).1.users[i]? = some v) ∧
    (∀ i : Nat, i < db.purchases.length →
      (purchase_gold db uid a ts).1.purchases[i]? = db.purchases[i]?) ∧
    (purchase_gold db uid a ts).1.purchases =
      db.purchases ++ [⟨db.next_purchase_id, uid, a, round6 (a / GOLD_RATE_PER_GRAM), ts⟩] := by
  obtain ⟨hpos, u, hu, hb⟩ := (purchase_gold_ok_iff db uid a ts).mp hok
  have hstep := purchase_gold_of_success db uid a ts u hu hpos hb
  rw [hstep]
  refine ⟨?_, ?_, update_purchases_eq db uid _ a ts⟩
  · intro i v hv hne
    rw [update_users_eq, List.getElem?_map, hv]
    have hne2 : (v.user_id == uid) = false := beq_eq_false_iff_ne.mpr hne
    simp [hne2, hne]
  · intro i hi
    rw [update_purchases_eq, List.getElem?_append]
    rw [if_pos hi]

/-- Witness for C10: alice (id 1) buys for 60 INR in a two-user state;
bob's row (position 1, id 2) is untouched and one row for user 1 is
appended. -/
theorem purchase_frame_effect_witness :
    isOkResult (purchase_gold dbTwo 1 60 ("t")).2 = true ∧
    (purchase_gold dbTwo 1 60 ("t")).1.users[1]? = some ⟨2, ("bob"), 7, 0⟩ ∧
    (purchase_gold dbTwo 1 60 ("t")).1.purchases =
      dbTwo.purchases ++
        [⟨dbTwo.next_purchase_id, 1, 60, round6 (60 / GOLD_RATE_PER_GRAM), ("t")⟩] := by
  have hok : isOkResult (purchase_gold dbTwo 1 60 ("t")).2 = true := by
    rw [purchase_gold_of_success dbTwo 1 60 ("t") ⟨1, ("alice"), 100, 0⟩
      rfl (by norm_num) (by norm_num)]
    rfl
  obtain ⟨husers, hpre, happ⟩ := purchase_frame_effect dbTwo 1 60 ("t") hok
  exact ⟨hok, husers 1 ⟨2, ("bob"), 7, 0⟩ rfl (by decide), happ⟩
